import Mathlib

/-!
Shallow embedding of the grading engine in `src/src/nbnursery/testutils.py`
(with the run configuration from `src/src/aibuilders_exam/grading/context.py`),
together with proofs of the behavioural properties stated in the design
document.

Modelling conventions:
* Python exceptions are an explicit error type `PyExc`; fallible operations
  return `Except PyExc _`.
* The module namespace (`types.ModuleType`) is a finite attribute map; since
  verification routines may mutate it in place, every execution function
  threads the module state explicitly and returns the possibly-mutated module.
* A wrapped verification routine (`wrapped_func`) is a record carrying its
  inspectable signature (the parameter kinds seen by `inspect.signature`) and
  its runtime behaviour as a state-passing function that either returns or
  raises.
* `rich.traceback.Traceback` / `BriefTraceback` objects are modelled by a
  record remembering which class was chosen (`ctx.show_stack_trace`) and the
  captured exception.
* Console printing (`ctx.console.print`, `rich_message`) is presentation only
  and has no effect on results; it is omitted.
-/

namespace NbNursery

/-- A Python exception value, identified by its class and payload. -/
inductive PyExc : Type
  | attributeError (name : String)
  | keyError (key : Nat)
  | typeError (msg : String)
  | valueError (msg : String)
  | assertionError (msg : String)
  | otherError (msg : String)
deriving DecidableEq

/-- First-order Python values stored in the module namespace and passed as
test-case data. -/
inductive PyVal : Type
  | int (n : Int)
  | str (s : String)
  | boolean (b : Bool)
  | pylist (l : List PyVal)

/-- The module namespace loaded from the artifact: a name-keyed attribute
dictionary (`types.ModuleType`). -/
structure ModuleType : Type where
  attrs : List (String × PyVal)

/-- Python `getattr(mod, name)`: the attribute value, or `AttributeError` when
the name is absent. -/
def ModuleType.getattr (mod : ModuleType) (name : String) : Except PyExc PyVal :=
  match mod.attrs.lookup name with
  | some v => Except.ok v
  | none => Except.error (PyExc.attributeError name)

/-- The kind of a declared parameter, as reported by `inspect.signature`. -/
inductive ParamKind : Type
  | positionalOnly
  | positionalOrKeyword
  | varPositional
  | keywordOnly
  | varKeyword
deriving DecidableEq

/-- `POSITIONAL_ARGS = [inspect.Parameter.POSITIONAL_ONLY,
inspect.Parameter.POSITIONAL_OR_KEYWORD]` (testutils.py line 33). -/
def POSITIONAL_ARGS : List ParamKind :=
  [ParamKind.positionalOnly, ParamKind.positionalOrKeyword]

/-- A Python function object as the engine sees it: its `__name__`, the
parameter kinds of its signature, and its runtime behaviour, which receives
the positional argument list and the module state and either returns (`ok`)
or raises (`error`), possibly mutating the module. -/
structure PyFunction : Type where
  name : String
  paramKinds : List ParamKind
  call : List PyVal → ModuleType → Except PyExc Unit × ModuleType

/-- `ExecArg` and its two dataclass variants `ModuleItem` and `Param`
(testutils.py lines 36-59).  A `Param` instance is identified by its Python
object identity `id(self)`, modelled as a `Nat` tag. -/
inductive ExecArg : Type
  | moduleItem (item_name : String)
  | param (pid : Nat)

/-- `TestScenario` (testutils.py lines 62-75): a wrapped verification routine
together with the metadata of its input arguments. -/
structure TestScenario : Type where
  wrapped_func : PyFunction
  exec_args : List ExecArg

/-- `TestCase` (testutils.py lines 108-114): a scenario plus the dictionary
from `Param` identities to concrete data values. -/
structure TestCase : Type where
  test_scenario : TestScenario
  params : List (Nat × PyVal)

/-- Python `dict` lookup on an association list built by `dict(zip(keys,
vals))`: on duplicate keys the later binding wins, hence the reversed scan. -/
def dictGet (d : List (Nat × PyVal)) (k : Nat) : Option PyVal :=
  d.reverse.lookup k

/-- `ExecArg.get_value(self, test_data, mod)` for the two variants:
`ModuleItem` performs `getattr(mod, self.item_name)` and `Param` reads
`test_data.params[id(self)]` (raising `KeyError` when absent). -/
def ExecArg.get_value : ExecArg → TestCase → ModuleType → Except PyExc PyVal
  | ExecArg.moduleItem n, _, mod => mod.getattr n
  | ExecArg.param pid, td, _ =>
    match dictGet td.params pid with
    | some v => Except.ok v
    | none => Except.error (PyExc.keyError pid)

/-- `TestScenario.create(*args)(func)` (testutils.py lines 77-92): the
decorator validates that every declared parameter is plain positional and
that the parameter count equals the argument-source count, raising
`TypeError` otherwise. -/
def TestScenario.create (args : List ExecArg) (func : PyFunction) :
    Except PyExc TestScenario :=
  if ¬ (func.paramKinds.all fun fp => decide (fp ∈ POSITIONAL_ARGS)) then
    Except.error (PyExc.typeError
      ("input arguments of wrapped function " ++ func.name ++ " must all be positional"))
  else if args.length < func.paramKinds.length then
    Except.error (PyExc.typeError
      ("wrapped function " ++ func.name ++ " has too many input arguments per decorator config"))
  else if func.paramKinds.length < args.length then
    Except.error (PyExc.typeError
      ("wrapped function " ++ func.name ++ " does not have enough input arguments decorator config"))
  else
    Except.ok ⟨func, args⟩

/-- The identities of the `Param` sources of a scenario, in order of
appearance: `[id(a) for a in self.exec_args if isinstance(a, Param)]`. -/
def TestScenario.paramIds (s : TestScenario) : List Nat :=
  s.exec_args.filterMap fun a =>
    match a with
    | ExecArg.param pid => some pid
    | ExecArg.moduleItem _ => none

/-- `TestScenario.data(*params)` (testutils.py lines 94-105): checks that the
number of supplied values equals the number of `Param` sources, raising
`ValueError` otherwise, then binds values to slot identities positionally. -/
def TestScenario.data (s : TestScenario) (params : List PyVal) :
    Except PyExc TestCase :=
  if s.paramIds.length ≠ params.length then
    Except.error (PyExc.valueError
      ("test data for " ++ s.wrapped_func.name ++ " expected fields mismatch"))
  else
    Except.ok ⟨s, s.paramIds.zip params⟩

/-- The three-way judgement literal of a test case result. -/
inductive Judgement : Type
  | accepted
  | mistake
  | skipped
deriving DecidableEq

/-- The string representation of a judgement as it appears in serialized
reports (the Python judgement IS this string). -/
def Judgement.serializeStr : Judgement → String
  | Judgement.accepted => "accepted"
  | Judgement.mistake => "mistake"
  | Judgement.skipped => "skipped"

/-- The run configuration (`ApplicationContext` in context.py) restricted to
the fields the engine reads: `force_grade_all` and the verbosity level from
which `show_stack_trace` is derived. -/
structure ApplicationContext : Type where
  force_grade_all : Bool
  verbosity : Int

/-- `show_stack_trace` (context.py lines 45-49): true iff verbosity ≥ 1. -/
def ApplicationContext.show_stack_trace (ctx : ApplicationContext) : Bool :=
  decide (1 ≤ ctx.verbosity)

/-- A captured rich traceback: which class was instantiated (`Traceback` when
`show_stack_trace`, else `BriefTraceback`) and the exception it captured. -/
structure RichTraceback : Type where
  full_stack : Bool
  exc : PyExc
deriving DecidableEq

/-- `TestCaseResult` (testutils.py lines 137-145): parent case, judgement, and
the optional rich traceback (default `None`). -/
structure TestCaseResult : Type where
  parent : TestCase
  judgement : Judgement
  rich_traceback : Option RichTraceback := none

/-- `TestCaseResult.is_accepted`: `self.judgement == 'accepted'`. -/
def TestCaseResult.is_accepted (r : TestCaseResult) : Bool :=
  decide (r.judgement = Judgement.accepted)

/-- The Python expression `tc_result is None` evaluated on an element of
`tc_results`: the list only ever holds `TestCaseResult` objects, so the
identity comparison with `None` is always false. -/
def TestCaseResult.isPyNone (_ : TestCaseResult) : Bool :=
  false

/-- The exception raised while executing a case, if any: argument resolution
in declared order, then the wrapped routine call — the first failure wins,
`none` when both succeed.  This is the observation that classifies the
outcome of `TestCase.execute`. -/
def caseRaises (c : TestCase) (mod : ModuleType) : Option PyExc :=
  match c.test_scenario.exec_args.mapM (fun a => a.get_value c mod) with
  | Except.error e => some e
  | Except.ok args =>
    match c.test_scenario.wrapped_func.call args mod with
    | (Except.error e, _) => some e
    | (Except.ok _, _) => none

/-- `TestCase.execute(self, ctx, mod)` (testutils.py lines 116-130): resolve
every argument source in order, invoke the wrapped routine, catch any
exception.  No exception yields `accepted` with no traceback; any exception
from resolution or the call yields `mistake` with a captured traceback whose
class depends on `ctx.show_stack_trace`.  The possibly-mutated module is
returned alongside. -/
def TestCase.execute (c : TestCase) (ctx : ApplicationContext) (mod : ModuleType) :
    TestCaseResult × ModuleType :=
  match c.test_scenario.exec_args.mapM (fun a => a.get_value c mod) with
  | Except.error e =>
    (⟨c, Judgement.mistake, some ⟨ctx.show_stack_trace, e⟩⟩, mod)
  | Except.ok args =>
    match c.test_scenario.wrapped_func.call args mod with
    | (Except.error e, mod') =>
      (⟨c, Judgement.mistake, some ⟨ctx.show_stack_trace, e⟩⟩, mod')
    | (Except.ok _, mod') =>
      (⟨c, Judgement.accepted, none⟩, mod')

/-- `TestCase.do_skip(self)` (testutils.py lines 132-134): a pure constructor
for the skipped result; it never touches the module or the routine. -/
def TestCase.do_skip (c : TestCase) : TestCaseResult :=
  ⟨c, Judgement.skipped, none⟩

/-- `TestGroup` (testutils.py lines 169-177): name, score weight, and the
ordered collection of test cases. -/
structure TestGroup : Type where
  name : String
  score_weight : Int
  all_test_cases : List TestCase

/-- `TestGroupResult` (testutils.py lines 193-201). -/
structure TestGroupResult : Type where
  parent : TestGroup
  is_accepted : Bool
  tc_results : List TestCaseResult

/-- The loop body of `TestGroup.execute` (testutils.py lines 181-189): walk
the cases in declared order carrying the running `is_accepted` flag and the
module state; when the flag is down and `force_grade_all` is off, append
`do_skip()` without executing; otherwise execute, append, and conjoin the
flag with the result's acceptance. -/
def execCasesFrom (ctx : ApplicationContext) :
    List TestCase → Bool → ModuleType → Bool × List TestCaseResult × ModuleType
  | [], acc, mod => (acc, [], mod)
  | c :: rest, acc, mod =>
    if !acc && !ctx.force_grade_all then
      let step := execCasesFrom ctx rest acc mod
      (step.1, c.do_skip :: step.2.1, step.2.2)
    else
      let r := c.execute ctx mod
      let step := execCasesFrom ctx rest (acc && r.1.is_accepted) r.2
      (step.1, r.1 :: step.2.1, step.2.2)

/-- `TestGroup.execute(self, ctx, mod)` (testutils.py lines 179-190). -/
def TestGroup.execute (g : TestGroup) (ctx : ApplicationContext) (mod : ModuleType) :
    TestGroupResult × ModuleType :=
  let run := execCasesFrom ctx g.all_test_cases true mod
  (⟨g, run.1, run.2.1⟩, run.2.2)

/-- `TestGroupResult.skipped_testcases` (testutils.py lines 203-206):
`sum(tc_result is None for tc_result in self.tc_results)`. -/
def TestGroupResult.skipped_testcases (r : TestGroupResult) : Nat :=
  (r.tc_results.filter fun tc => tc.isPyNone).length

/-- Python `bool` coerced to `int` for arithmetic. -/
def boolToInt (b : Bool) : Int :=
  if b then 1 else 0

/-- `TestGroupResult.score_earned` (testutils.py lines 208-211):
`self.is_accepted * self.parent.score_weight`. -/
def TestGroupResult.score_earned (r : TestGroupResult) : Int :=
  boolToInt r.is_accepted * r.parent.score_weight

/-- A JSON-serializable Python object, as produced by the `serialize`
methods. -/
inductive JsonVal : Type
  | jstr (s : String)
  | jint (n : Int)
  | jbool (b : Bool)
  | jarr (items : List JsonVal)
  | jobj (fields : List (String × JsonVal))

/-- `TestGroupResult.serialize` (testutils.py lines 213-221). -/
def TestGroupResult.serialize (r : TestGroupResult) : JsonVal :=
  JsonVal.jobj
    [ ("group_name", JsonVal.jstr r.parent.name)
    , ("score_weight", JsonVal.jint r.parent.score_weight)
    , ("score_earned", JsonVal.jint r.score_earned)
    , ("is_accepted", JsonVal.jbool r.is_accepted)
    , ("sub_results", JsonVal.jarr
        (r.tc_results.map fun tc => JsonVal.jstr tc.judgement.serializeStr))
    ]

/-- `TestSuite` (testutils.py lines 240-243). -/
structure TestSuite : Type where
  test_groups : List TestGroup

/-- `TestSuiteResult` (testutils.py lines 256-259). -/
structure TestSuiteResult : Type where
  tg_results : List TestGroupResult

/-- The loop of `TestSuite.execute` (testutils.py lines 247-252): execute
every group in declared order against the threaded module state, collecting
one result per group (console printing omitted as presentation). -/
def execGroupsFrom (ctx : ApplicationContext) :
    List TestGroup → ModuleType → List TestGroupResult × ModuleType
  | [], mod => ([], mod)
  | g :: rest, mod =>
    let r := g.execute ctx mod
    let step := execGroupsFrom ctx rest r.2
    (r.1 :: step.1, step.2)

/-- `TestSuite.execute(self, ctx, mod)` (testutils.py lines 245-253). -/
def TestSuite.execute (s : TestSuite) (ctx : ApplicationContext) (mod : ModuleType) :
    TestSuiteResult × ModuleType :=
  let run := execGroupsFrom ctx s.test_groups mod
  (⟨run.1⟩, run.2)

/-- `TestSuiteResult.total_weight` (testutils.py lines 261-263). -/
def TestSuiteResult.total_weight (r : TestSuiteResult) : Int :=
  (r.tg_results.map fun tg => tg.parent.score_weight).sum

/-- `TestSuiteResult.score_earned` (testutils.py lines 265-267). -/
def TestSuiteResult.score_earned (r : TestSuiteResult) : Int :=
  (r.tg_results.map fun tg => tg.score_earned).sum

/-- `TestSuiteResult.is_perfect` (testutils.py lines 269-271). -/
def TestSuiteResult.is_perfect (r : TestSuiteResult) : Bool :=
  r.tg_results.all fun tg => tg.is_accepted

/-- `TestSuiteResult.serialize` (testutils.py lines 273-282). -/
def TestSuiteResult.serialize (r : TestSuiteResult) : JsonVal :=
  JsonVal.jobj
    [ ("total_weight", JsonVal.jint r.total_weight)
    , ("score_earned", JsonVal.jint r.score_earned)
    , ("test_groups", JsonVal.jarr (r.tg_results.map fun tg => tg.serialize))
    ]

/-- Replace the runtime behaviour of a case's wrapped routine, keeping
everything else; used to state that a skipped case's routine is never
invoked (the outcome is independent of the routine's behaviour). -/
def TestCase.withCall (c : TestCase)
    (f : List PyVal → ModuleType → Except PyExc Unit × ModuleType) : TestCase :=
  { c with test_scenario :=
      { c.test_scenario with wrapped_func :=
          { c.test_scenario.wrapped_func with call := f } } }

/-- Replace the runtime behaviour of the routine of the case at position `i`
of a list of cases. -/
def replaceCallAt (f : List PyVal → ModuleType → Except PyExc Unit × ModuleType) :
    Nat → List TestCase → List TestCase
  | _, [] => []
  | 0, c :: rest => c.withCall f :: rest
  | n + 1, c :: rest => c :: replaceCallAt f n rest

/-- The group with the routine behaviour of the case at position `i`
replaced. -/
def TestGroup.withCallAt (g : TestGroup) (i : Nat)
    (f : List PyVal → ModuleType → Except PyExc Unit × ModuleType) : TestGroup :=
  { g with all_test_cases := replaceCallAt f i g.all_test_cases }

/-- The module state a suite run presents to the group at position `i`: the
initial module threaded through the execution of the first `i` groups. -/
def suiteStateAt (ctx : ApplicationContext) :
    List TestGroup → ModuleType → Nat → ModuleType
  | _, mod, 0 => mod
  | [], mod, _ + 1 => mod
  | g :: rest, mod, i + 1 => suiteStateAt ctx rest (g.execute ctx mod).2 i

/-! Concrete fixtures used to instantiate the theorems below. -/

/-- A run configuration with default options: `force_grade_all = False`,
verbosity 0 (so `show_stack_trace` is false). -/
def ctx0 : ApplicationContext :=
  ⟨false, 0⟩

/-- An artifact namespace with a single integer binding. -/
def mod0 : ModuleType :=
  ⟨[("count_even", PyVal.int 7)]⟩

/-- A zero-parameter verification routine that returns normally. -/
def passFunc : PyFunction :=
  ⟨"ok_check", [], fun _ mod => (Except.ok (), mod)⟩

/-- A zero-parameter verification routine that raises `AssertionError`. -/
def failFunc : PyFunction :=
  ⟨"bad_check", [], fun _ mod => (Except.error (PyExc.assertionError "boom"), mod)⟩

/-- A test case whose execution is accepted. -/
def caseP : TestCase :=
  ⟨⟨passFunc, []⟩, []⟩

/-- A test case whose execution is a mistake. -/
def caseF : TestCase :=
  ⟨⟨failFunc, []⟩, []⟩

/-- A two-case group (weight 10) whose first case fails, so its second case
is skipped under the default configuration. -/
def gEx : TestGroup :=
  ⟨"group1", 10, [caseF, caseP]⟩

/-- A zero-weight group containing one failing case. -/
def gZero : TestGroup :=
  ⟨"gzero", 0, [caseF]⟩

/-- A group with no test cases. -/
def gEmpty : TestGroup :=
  ⟨"gempty", 5, []⟩

/-- A weight-10 group whose single case is accepted. -/
def gOK : TestGroup :=
  ⟨"gok", 10, [caseP]⟩

/-- A verification routine declaring one plain positional parameter. -/
def funcOneArg : PyFunction :=
  ⟨"one_arg", [ParamKind.positionalOrKeyword], fun _ mod => (Except.ok (), mod)⟩

/-- A scenario whose single argument source is a `Param` slot. -/
def scenEx : TestScenario :=
  ⟨funcOneArg, [ExecArg.param 0]⟩

/-- A two-group suite: first group (weight 10) fully accepted, second group
(weight 20) failing. -/
def suiteEx : TestSuite :=
  ⟨[⟨"g1", 10, [caseP]⟩, ⟨"g2", 20, [caseF]⟩]⟩

/-! Basic unfolding lemmas. -/

theorem TestGroup.execute_is_accepted (g : TestGroup) (ctx : ApplicationContext)
    (mod : ModuleType) :
    (g.execute ctx mod).1.is_accepted = (execCasesFrom ctx g.all_test_cases true mod).1 :=
  rfl

theorem TestGroup.execute_tc_results (g : TestGroup) (ctx : ApplicationContext)
    (mod : ModuleType) :
    (g.execute ctx mod).1.tc_results = (execCasesFrom ctx g.all_test_cases true mod).2.1 :=
  rfl

theorem TestGroup.execute_group_parent (g : TestGroup) (ctx : ApplicationContext)
    (mod : ModuleType) :
    (g.execute ctx mod).1.parent = g :=
  rfl

theorem TestGroup.execute_mod (g : TestGroup) (ctx : ApplicationContext)
    (mod : ModuleType) :
    (g.execute ctx mod).2 = (execCasesFrom ctx g.all_test_cases true mod).2.2 :=
  rfl

theorem TestCase.do_skip_judgement (c : TestCase) :
    c.do_skip.judgement = Judgement.skipped :=
  rfl

theorem TestCase.do_skip_is_accepted (c : TestCase) :
    c.do_skip.is_accepted = false :=
  rfl

theorem TestCase.execute_case_parent (c : TestCase) (ctx : ApplicationContext)
    (mod : ModuleType) :
    (c.execute ctx mod).1.parent = c := by
  unfold TestCase.execute
  rcases h : c.test_scenario.exec_args.mapM fun a => a.get_value c mod with e | args
  · rw [h]
  · rcases h2 : c.test_scenario.wrapped_func.call args mod with ⟨res, mod2⟩
    cases res <;> (rw [h]; dsimp only; rw [h2])

/-! Structural lemmas about the group execution loop. -/

/-- Once the running flag is down and `force_grade_all` is off, every
remaining case is turned into `do_skip()` and neither the flag nor the
module changes. -/
theorem execCasesFrom_allSkip (ctx : ApplicationContext)
    (hf : ctx.force_grade_all = false) :
    ∀ (cases : List TestCase) (mod : ModuleType),
      execCasesFrom ctx cases false mod = (false, cases.map TestCase.do_skip, mod) := by
  intro cases
  induction cases with
  | nil => intro mod; rfl
  | cons c rest ih =>
    intro mod
    simp [execCasesFrom, hf, ih]

/-- The loop returns exactly one result per case. -/
theorem execCasesFrom_length (ctx : ApplicationContext) :
    ∀ (cases : List TestCase) (acc : Bool) (mod : ModuleType),
      ((execCasesFrom ctx cases acc mod).2.1).length = cases.length := by
  intro cases
  induction cases with
  | nil => intro acc mod; rfl
  | cons c rest ih =>
    intro acc mod
    simp only [execCasesFrom]
    split <;> simp [ih]

/-- Each produced result's parent is the corresponding declared case, in
declared order. -/
theorem execCasesFrom_parents (ctx : ApplicationContext) :
    ∀ (cases : List TestCase) (acc : Bool) (mod : ModuleType),
      ((execCasesFrom ctx cases acc mod).2.1).map (fun r => r.parent) = cases := by
  intro cases
  induction cases with
  | nil => intro acc mod; rfl
  | cons c rest ih =>
    intro acc mod
    simp only [execCasesFrom]
    split
    · simp [TestCase.do_skip, ih]
    · simp [TestCase.execute_case_parent, ih]

/-- The flag returned by the loop is the initial flag conjoined with the
acceptance of every produced result. -/
theorem execCasesFrom_flag (ctx : ApplicationContext) :
    ∀ (cases : List TestCase) (acc : Bool) (mod : ModuleType),
      (execCasesFrom ctx cases acc mod).1
        = (acc && ((execCasesFrom ctx cases acc mod).2.1).all fun r => r.is_accepted) := by
  intro cases
  induction cases with
  | nil => intro acc mod; simp [execCasesFrom]
  | cons c rest ih =>
    intro acc mod
    simp only [execCasesFrom]
    split
    next h =>
      have hacc : acc = false := by
        cases acc
        · rfl
        · simp at h
      subst hacc
      simp [ih]
    next h =>
      simp [ih, Bool.and_assoc]

/-- A result judged `mistake` is not accepted. -/
theorem TestCaseResult.not_accepted_of_mistake (r : TestCaseResult)
    (h : r.judgement = Judgement.mistake) : r.is_accepted = false := by
  simp [TestCaseResult.is_accepted, h]

/-- The judgement of an executed case is classified by the exception raised:
`mistake` when one is raised, `accepted` when none is. -/
theorem TestCase.execute_judgement (c : TestCase) (ctx : ApplicationContext)
    (mod : ModuleType) :
    (c.execute ctx mod).1.judgement
      = (match caseRaises c mod with
         | some _ => Judgement.mistake
         | none => Judgement.accepted) := by
  unfold TestCase.execute caseRaises
  rcases h : c.test_scenario.exec_args.mapM fun a => a.get_value c mod with e | args
  · rw [h]
  · rcases h2 : c.test_scenario.wrapped_func.call args mod with ⟨res, mod2⟩
    cases res <;> (rw [h]; dsimp only; rw [h2])

/-- The captured traceback of an executed case is exactly the raised
exception (when there is one) wrapped in the traceback class selected by
`ctx.show_stack_trace`. -/
theorem TestCase.execute_traceback (c : TestCase) (ctx : ApplicationContext)
    (mod : ModuleType) :
    (c.execute ctx mod).1.rich_traceback
      = (caseRaises c mod).map fun e => RichTraceback.mk ctx.show_stack_trace e := by
  unfold TestCase.execute caseRaises
  rcases h : c.test_scenario.exec_args.mapM fun a => a.get_value c mod with e | args
  · rw [h]; rfl
  · rcases h2 : c.test_scenario.wrapped_func.call args mod with ⟨res, mod2⟩
    cases res <;> (rw [h]; dsimp only; rw [h2]; rfl)

/-- Cascade: as soon as some result in the first `i` positions is a
`mistake` (and `force_grade_all` is off), the result at position `i` is the
skip of the case declared at position `i`. -/
theorem execCasesFrom_cascade (ctx : ApplicationContext)
    (hf : ctx.force_grade_all = false) :
    ∀ (cases : List TestCase) (acc : Bool) (mod : ModuleType) (i : Nat),
      (∃ r ∈ ((execCasesFrom ctx cases acc mod).2.1).take i,
        r.judgement = Judgement.mistake) →
      ((execCasesFrom ctx cases acc mod).2.1)[i]? = (cases[i]?).map TestCase.do_skip := by
  intro cases
  induction cases with
  | nil =>
    intro acc mod i h
    exfalso
    rcases h with ⟨r, hr, _⟩
    simp [execCasesFrom] at hr
  | cons c rest ih =>
    intro acc mod i h
    cases acc with
    | false =>
      rw [execCasesFrom_allSkip ctx hf]
      rcases i with _ | k
      · simp
      · simp [List.getElem?_map]
    | true =>
      simp only [execCasesFrom, Bool.not_true, Bool.false_and, Bool.false_eq_true,
        if_false] at h ⊢
      cases i with
      | zero =>
        exfalso
        rcases h with ⟨r, hr, _⟩
        simp at hr
      | succ k =>
        rw [List.take_succ_cons] at h
        rcases h with ⟨r', hr', hj⟩
        rcases List.mem_cons.mp hr' with hhead | hmem
        · subst hhead
          have hn : (c.execute ctx mod).1.is_accepted = false :=
            TestCaseResult.not_accepted_of_mistake _ hj
          simp only [Bool.true_and, hn] at *
          rw [execCasesFrom_allSkip ctx hf]
          simp
        · have := ih (true && (c.execute ctx mod).1.is_accepted) (c.execute ctx mod).2 k
            ⟨r', hmem, hj⟩
          simpa using this

/-- `replaceCallAt` preserves the number of cases. -/
theorem replaceCallAt_length
    (f : List PyVal → ModuleType → Except PyExc Unit × ModuleType) :
    ∀ (i : Nat) (l : List TestCase), (replaceCallAt f i l).length = l.length := by
  intro i l
  induction l generalizing i with
  | nil => cases i <;> rfl
  | cons c rest ih =>
    cases i with
    | zero => rfl
    | succ k => simp [replaceCallAt, ih]

/-- The judgements of a block of skips are all `skipped`. -/
theorem map_do_skip_judgement :
    ∀ (l : List TestCase),
      (l.map TestCase.do_skip).map (fun r => r.judgement)
        = List.replicate l.length Judgement.skipped := by
  intro l
  induction l with
  | nil => rfl
  | cons c rest ih => simp [ih, List.replicate_succ, TestCase.do_skip]

/-- Noninterference of skipped routines: once a `mistake` occurs among the
first `i` results (or the flag is already down) under `force_grade_all`
off, replacing the behaviour of the routine of the case at position `i` by
anything changes neither the flag, nor the judgements, nor the final module
state — the routine at a skipped position is never invoked. -/
theorem execCasesFrom_replaceCall (ctx : ApplicationContext)
    (hf : ctx.force_grade_all = false)
    (f : List PyVal → ModuleType → Except PyExc Unit × ModuleType) :
    ∀ (cases : List TestCase) (i : Nat) (acc : Bool) (mod : ModuleType),
      (acc = false ∨ ∃ r ∈ ((execCasesFrom ctx cases acc mod).2.1).take i,
        r.judgement = Judgement.mistake) →
      ((execCasesFrom ctx (replaceCallAt f i cases) acc mod).1
          = (execCasesFrom ctx cases acc mod).1
      ∧ ((execCasesFrom ctx (replaceCallAt f i cases) acc mod).2.1).map (fun r => r.judgement)
          = ((execCasesFrom ctx cases acc mod).2.1).map (fun r => r.judgement)
      ∧ (execCasesFrom ctx (replaceCallAt f i cases) acc mod).2.2
          = (execCasesFrom ctx cases acc mod).2.2) := by
  intro cases
  induction cases with
  | nil =>
    intro i acc mod _
    cases i <;> exact ⟨rfl, rfl, rfl⟩
  | cons c rest ih =>
    intro i acc mod h
    cases acc with
    | false =>
      rw [execCasesFrom_allSkip ctx hf, execCasesFrom_allSkip ctx hf]
      refine ⟨rfl, ?_, rfl⟩
      rw [map_do_skip_judgement, map_do_skip_judgement, replaceCallAt_length]
    | true =>
      rcases h with h | ⟨r', hr', hj⟩
      · exact absurd h (by simp)
      cases i with
      | zero =>
        exfalso
        rw [List.take_zero] at hr'
        exact absurd hr' (List.not_mem_nil _)
      | succ k =>
        simp only [execCasesFrom, Bool.not_true, Bool.false_and, Bool.false_eq_true,
          if_false, List.take_succ_cons] at hr' ⊢
        rcases List.mem_cons.mp hr' with hhead | hmem
        · subst hhead
          have hn : (c.execute ctx mod).1.is_accepted = false :=
            TestCaseResult.not_accepted_of_mistake _ hj
          simp only [Bool.true_and, hn]
          rw [execCasesFrom_allSkip ctx hf, execCasesFrom_allSkip ctx hf]
          refine ⟨rfl, ?_, rfl⟩
          simp only [List.map_cons]
          rw [map_do_skip_judgement, map_do_skip_judgement, replaceCallAt_length]
        · have := ih k (true && (c.execute ctx mod).1.is_accepted) (c.execute ctx mod).2
            (Or.inr ⟨r', hmem, hj⟩)
          refine ⟨this.1, ?_, this.2.2⟩
          simp only [List.map_cons, this.2.1]

/-! Structural lemmas about the suite execution loop. -/

theorem TestSuite.execute_tg_results (s : TestSuite) (ctx : ApplicationContext)
    (mod : ModuleType) :
    (s.execute ctx mod).1.tg_results = (execGroupsFrom ctx s.test_groups mod).1 :=
  rfl

/-- Each group result's parent is the corresponding declared group, in
declared order. -/
theorem execGroupsFrom_parents (ctx : ApplicationContext) :
    ∀ (groups : List TestGroup) (mod : ModuleType),
      ((execGroupsFrom ctx groups mod).1).map (fun r => r.parent) = groups := by
  intro groups
  induction groups with
  | nil => intro mod; rfl
  | cons g rest ih =>
    intro mod
    simp [execGroupsFrom, TestGroup.execute_group_parent, ih]

/-- The result at position `i` of a suite run is exactly the execution of
the group declared at position `i`, against the module state threaded
through the earlier groups — unconditionally, whatever the earlier
outcomes were. -/
theorem execGroupsFrom_getElem (ctx : ApplicationContext) :
    ∀ (groups : List TestGroup) (mod : ModuleType) (i : Nat),
      ((execGroupsFrom ctx groups mod).1)[i]?
        = (groups[i]?).map fun g => (g.execute ctx (suiteStateAt ctx groups mod i)).1 := by
  intro groups
  induction groups with
  | nil => intro mod i; cases i <;> rfl
  | cons g rest ih =>
    intro mod i
    cases i with
    | zero => simp [execGroupsFrom, suiteStateAt]
    | succ k =>
      simp only [execGroupsFrom, List.getElem?_cons_succ]
      rw [ih (g.execute ctx mod).2 k]
      rfl

/-! Claim theorems. -/

/-- Claim C1: with `force_grade_all` off, if some case result before
position `i` has judgement `mistake`, then the result at position `i` is
`do_skip()` of the case declared at position `i` (so its judgement is
`skipped`), and the skipped case's verification routine is never invoked:
replacing its behaviour by any function changes neither the judgement
list, nor the group acceptance, nor the final module state. -/
theorem C1_skip_cascade (g : TestGroup) (ctx : ApplicationContext) (mod : ModuleType)
    (hf : ctx.force_grade_all = false) (i : Nat)
    (hm : Judgement.mistake
      ∈ (((g.execute ctx mod).1.tc_results.map fun r => r.judgement).take i)) :
    (((g.execute ctx mod).1.tc_results)[i]? = (g.all_test_cases[i]?).map TestCase.do_skip)
    ∧ ((((g.execute ctx mod).1.tc_results.map fun r => r.judgement)[i]?)
        = (g.all_test_cases[i]?).map fun _ => Judgement.skipped)
    ∧ ∀ f, ((((g.withCallAt i f).execute ctx mod).1.tc_results.map fun r => r.judgement)
          = ((g.execute ctx mod).1.tc_results.map fun r => r.judgement))
        ∧ (((g.withCallAt i f).execute ctx mod).1.is_accepted
          = (g.execute ctx mod).1.is_accepted)
        ∧ (((g.withCallAt i f).execute ctx mod).2 = (g.execute ctx mod).2) := by
  have hm' : ∃ r ∈ ((execCasesFrom ctx g.all_test_cases true mod).2.1).take i,
      r.judgement = Judgement.mistake := by
    rw [TestGroup.execute_tc_results, ← List.map_take] at hm
    exact List.mem_map.mp hm
  have h1 := execCasesFrom_cascade ctx hf g.all_test_cases true mod i hm'
  refine ⟨h1, ?_, ?_⟩
  · rw [TestGroup.execute_tc_results, List.getElem?_map, h1]
    cases g.all_test_cases[i]? <;> rfl
  · intro f
    have hni := execCasesFrom_replaceCall ctx hf f g.all_test_cases i true mod (Or.inr hm')
    exact ⟨hni.2.1, hni.1, hni.2.2⟩

/-- Claim C1 witness: in the concrete group `gEx` (first case a mistake),
the result at position 1 is the skip of the declared second case. -/
theorem C1_skip_cascade_witness :
    ((gEx.execute ctx0 mod0).1.tc_results)[1]?
      = (gEx.all_test_cases[1]?).map TestCase.do_skip :=
  (C1_skip_cascade gEx ctx0 mod0 rfl 1 (by decide)).1

/-- Claim C2 counterexample: for the zero-weight group `gZero` whose sole
case is a mistake, `score_earned` equals `score_weight` although not every
case result is accepted — the claimed iff fails when the weight is 0. -/
theorem C2_counterexample :
    (gZero.execute ctx0 mod0).1.score_earned = gZero.score_weight
    ∧ ¬ (∀ tc ∈ (gZero.execute ctx0 mod0).1.tc_results,
          tc.judgement = Judgement.accepted) := by
  constructor
  · decide
  · intro hall
    have h2 : ((gZero.execute ctx0 mod0).1.tc_results.map fun r => r.judgement)
        = [Judgement.mistake] := by decide
    rcases hres : (gZero.execute ctx0 mod0).1.tc_results with _ | ⟨r0, rest⟩
    · rw [hres] at h2
      simp at h2
    · rw [hres] at h2
      simp only [List.map_cons, List.cons.injEq] at h2
      have hacc := hall r0 (by rw [hres]; exact List.mem_cons_self _ _)
      rw [hacc] at h2
      exact absurd h2.1 (by decide)

/-- Claim C2 (amended): `score_earned` is 0 or the full `score_weight`; the
group is accepted exactly when every case result is `accepted`; and
provided `score_weight ≠ 0`, `score_earned = score_weight` holds iff every
case result is `accepted` (for a zero-weight group the score always equals
the weight, even when cases fail). -/
theorem C2_binary_group_scoring (g : TestGroup) (ctx : ApplicationContext)
    (mod : ModuleType) :
    ((g.execute ctx mod).1.score_earned = 0
      ∨ (g.execute ctx mod).1.score_earned = g.score_weight)
    ∧ ((g.execute ctx mod).1.is_accepted = true ↔
        ∀ tc ∈ (g.execute ctx mod).1.tc_results, tc.judgement = Judgement.accepted)
    ∧ (g.score_weight ≠ 0 →
        ((g.execute ctx mod).1.score_earned = g.score_weight ↔
          ∀ tc ∈ (g.execute ctx mod).1.tc_results, tc.judgement = Judgement.accepted)) := by
  have hflag : (g.execute ctx mod).1.is_accepted
      = ((g.execute ctx mod).1.tc_results.all fun r => r.is_accepted) := by
    rw [TestGroup.execute_is_accepted, TestGroup.execute_tc_results,
      execCasesFrom_flag, Bool.true_and]
  have hiff : (g.execute ctx mod).1.is_accepted = true ↔
      ∀ tc ∈ (g.execute ctx mod).1.tc_results, tc.judgement = Judgement.accepted := by
    rw [hflag, List.all_eq_true]
    constructor
    · intro hall tc htc
      have := hall tc htc
      simpa [TestCaseResult.is_accepted] using this
    · intro hall tc htc
      simp [TestCaseResult.is_accepted, hall tc htc]
  have hscore : (g.execute ctx mod).1.score_earned
      = boolToInt (g.execute ctx mod).1.is_accepted * g.score_weight := by
    simp only [TestGroupResult.score_earned]
    rw [show (g.execute ctx mod).1.parent = g from rfl]
  refine ⟨?_, hiff, ?_⟩
  · rcases hb : (g.execute ctx mod).1.is_accepted
    · left
      rw [hscore, hb]
      simp [boolToInt]
    · right
      rw [hscore, hb]
      simp [boolToInt]
  · intro hw
    rw [← hiff]
    constructor
    · intro hs
      rcases hb : (g.execute ctx mod).1.is_accepted
      · exfalso
        rw [hscore, hb] at hs
        simp [boolToInt] at hs
        exact hw hs.symm
      · rfl
    · intro hb
      rw [hscore, hb]
      simp [boolToInt]

/-- Claim C2 witness: for the weight-10 fully accepted group `gOK` the score
earned is the full weight. -/
theorem C2_binary_group_scoring_witness :
    (gOK.execute ctx0 mod0).1.score_earned = gOK.score_weight :=
  ((C2_binary_group_scoring gOK ctx0 mod0).2.2 (by decide)).mpr (by decide)

/-- Claim C3: a suite result's `score_earned` is the sum of its group
results' scores, its `total_weight` is the sum of the declared groups'
weights, and `is_perfect` holds iff every group result is accepted. -/
theorem C3_suite_aggregation (s : TestSuite) (ctx : ApplicationContext)
    (mod : ModuleType) :
    ((s.execute ctx mod).1.score_earned
      = (((s.execute ctx mod).1.tg_results).map fun tg => tg.score_earned).sum)
    ∧ ((s.execute ctx mod).1.total_weight
      = (s.test_groups.map fun g => g.score_weight).sum)
    ∧ ((s.execute ctx mod).1.is_perfect = true ↔
        ∀ tg ∈ (s.execute ctx mod).1.tg_results, tg.is_accepted = true) := by
  refine ⟨rfl, ?_, ?_⟩
  · simp only [TestSuiteResult.total_weight]
    rw [show (fun (r : TestGroupResult) => r.parent.score_weight)
        = (fun (g : TestGroup) => g.score_weight) ∘ (fun r => r.parent) from rfl]
    rw [← List.map_map, TestSuite.execute_tg_results,
      execGroupsFrom_parents ctx s.test_groups mod]
  · simp only [TestSuiteResult.is_perfect, List.all_eq_true]

/-- Claim C3 witness: the concrete suite's total weight is the sum of its
declared group weights. -/
theorem C3_suite_aggregation_witness :
    (suiteEx.execute ctx0 mod0).1.total_weight
      = (suiteEx.test_groups.map fun g => g.score_weight).sum :=
  (C3_suite_aggregation suiteEx ctx0 mod0).2.1

/-- Claim C4: executing a case yields `accepted` exactly when neither
argument resolution nor the routine raises, `mistake` exactly when an
exception is raised (whatever it is), the captured detail is exactly the
raised exception wrapped per `show_stack_trace`, `do_skip()` is the pure
`skipped` constructor with no detail, and a detail is present exactly on
`mistake` results. -/
theorem C4_case_execution (c : TestCase) (ctx : ApplicationContext)
    (mod : ModuleType) :
    ((c.execute ctx mod).1.judgement = Judgement.accepted ↔ caseRaises c mod = none)
    ∧ ((c.execute ctx mod).1.judgement = Judgement.mistake
        ↔ (caseRaises c mod).isSome = true)
    ∧ ((c.execute ctx mod).1.rich_traceback
        = (caseRaises c mod).map fun e => RichTraceback.mk ctx.show_stack_trace e)
    ∧ (c.do_skip = ⟨c, Judgement.skipped, none⟩)
    ∧ ((c.execute ctx mod).1.rich_traceback.isSome
        = decide ((c.execute ctx mod).1.judgement = Judgement.mistake)) := by
  have hj := TestCase.execute_judgement c ctx mod
  have ht := TestCase.execute_traceback c ctx mod
  rcases hcr : caseRaises c mod with _ | e <;> rw [hcr] at hj ht <;> dsimp only at hj <;>
    exact ⟨by simp [hj, hcr], by simp [hj, hcr], ht, rfl, by simp [hj, ht, hcr]⟩

/-- Claim C4 witness: the failing concrete case carries a detail exactly
because it is a mistake. -/
theorem C4_case_execution_witness :
    (caseF.execute ctx0 mod0).1.rich_traceback.isSome
      = decide ((caseF.execute ctx0 mod0).1.judgement = Judgement.mistake) :=
  (C4_case_execution caseF ctx0 mod0).2.2.2.2

/-- Claim C5: decorating a routine succeeds exactly when every declared
parameter is plain positional and the parameter count equals the number of
argument sources; binding data succeeds exactly when the number of values
equals the number of `Param` slots. -/
theorem C5_construction_arity (func : PyFunction) (args : List ExecArg)
    (s : TestScenario) (vals : List PyVal) :
    ((∃ sc, TestScenario.create args func = Except.ok sc) ↔
      ((∀ k ∈ func.paramKinds, k ∈ POSITIONAL_ARGS)
        ∧ func.paramKinds.length = args.length))
    ∧ ((∃ c, s.data vals = Except.ok c) ↔ vals.length = s.paramIds.length) := by
  constructor
  · simp only [TestScenario.create]
    split_ifs with h1 h2 h3
    · constructor
      · rintro ⟨sc, hsc⟩
        exact hsc.elim
      · rintro ⟨_, hlen⟩
        exact absurd hlen (by omega)
    · constructor
      · rintro ⟨sc, hsc⟩
        exact hsc.elim
      · rintro ⟨_, hlen⟩
        exact absurd hlen (by omega)
    · constructor
      · intro _
        refine ⟨?_, by omega⟩
        intro k hk
        have := List.all_eq_true.mp h1 k hk
        simpa using this
      · intro _
        exact ⟨⟨func, args⟩, rfl⟩
    · constructor
      · rintro ⟨sc, hsc⟩
        exact hsc.elim
      · rintro ⟨hA, _⟩
        refine absurd (List.all_eq_true.mpr ?_) h1
        intro k hk
        simpa using hA k hk
  · simp only [TestScenario.data]
    split_ifs with h
    · constructor
      · rintro ⟨c, hc⟩
        exact hc.elim
      · intro hlen
        exact absurd hlen.symm h
    · constructor
      · intro _
        omega
      · intro _
        exact ⟨⟨s, s.paramIds.zip vals⟩, rfl⟩

/-- Claim C5 witness: binding one value against the one-slot scenario
succeeds. -/
theorem C5_construction_arity_witness :
    ∃ c, scenEx.data [PyVal.int 3] = Except.ok c :=
  ((C5_construction_arity funcOneArg [ExecArg.param 0] scenEx [PyVal.int 3]).2).mpr
    (by decide)

/-- Claim C6: the code of `skipped_testcases` counts results identical to
`None`, which never occur, so it reports 0 even for the group `gEx` whose
run contains exactly one result with judgement `skipped` — contradicting
the docstring "Number of test cases skipped from execution". -/
theorem C6_skipped_counter_bug :
    (((gEx.execute ctx0 mod0).1.tc_results.map fun r => r.judgement)
        = [Judgement.mistake, Judgement.skipped])
    ∧ (((gEx.execute ctx0 mod0).1.tc_results.filter fun r =>
          decide (r.judgement = Judgement.skipped)).length = 1)
    ∧ ((gEx.execute ctx0 mod0).1.skipped_testcases = 0) :=
  ⟨by decide, by decide, by decide⟩

/-- Claim C7: a suite run yields one group result per declared group, in
declared order, and the result at each position is unconditionally the
execution of that group against the threaded module state — earlier
failures never prevent later groups from executing. -/
theorem C7_suite_executes_every_group (s : TestSuite) (ctx : ApplicationContext)
    (mod : ModuleType) :
    ((s.execute ctx mod).1.tg_results.length = s.test_groups.length)
    ∧ (((s.execute ctx mod).1.tg_results.map fun r => r.parent) = s.test_groups)
    ∧ ∀ i : Nat, ((s.execute ctx mod).1.tg_results)[i]?
        = (s.test_groups[i]?).map
            fun g => (g.execute ctx (suiteStateAt ctx s.test_groups mod i)).1 := by
  have hp : ((s.execute ctx mod).1.tg_results.map fun r => r.parent) = s.test_groups := by
    rw [TestSuite.execute_tg_results]
    exact execGroupsFrom_parents ctx s.test_groups mod
  refine ⟨?_, hp, ?_⟩
  · have := congrArg List.length hp
    simpa using this
  · intro i
    rw [TestSuite.execute_tg_results]
    exact execGroupsFrom_getElem ctx s.test_groups mod i

/-- Claim C7 witness: the concrete suite produces one result per declared
group. -/
theorem C7_suite_executes_every_group_witness :
    (suiteEx.execute ctx0 mod0).1.tg_results.length = suiteEx.test_groups.length :=
  (C7_suite_executes_every_group suiteEx ctx0 mod0).1

/-- Claim C8: a group result serializes to an object with exactly the keys
`group_name`, `score_weight`, `score_earned`, `is_accepted` and
`sub_results`; `sub_results` holds one judgement string per declared case,
in declared order, each drawn from accepted/mistake/skipped. -/
theorem C8_group_serialization (g : TestGroup) (ctx : ApplicationContext)
    (mod : ModuleType) :
    ((g.execute ctx mod).1.serialize = JsonVal.jobj
      [ ("group_name", JsonVal.jstr g.name)
      , ("score_weight", JsonVal.jint g.score_weight)
      , ("score_earned", JsonVal.jint (g.execute ctx mod).1.score_earned)
      , ("is_accepted", JsonVal.jbool (g.execute ctx mod).1.is_accepted)
      , ("sub_results", JsonVal.jarr (((g.execute ctx mod).1.tc_results).map
            fun tc => JsonVal.jstr tc.judgement.serializeStr)) ])
    ∧ ((g.execute ctx mod).1.tc_results.length = g.all_test_cases.length)
    ∧ (((g.execute ctx mod).1.tc_results.map fun r => r.parent) = g.all_test_cases)
    ∧ (∀ tc ∈ (g.execute ctx mod).1.tc_results,
        tc.judgement.serializeStr = "accepted"
          ∨ tc.judgement.serializeStr = "mistake"
          ∨ tc.judgement.serializeStr = "skipped") := by
  refine ⟨rfl, ?_, ?_, ?_⟩
  · rw [TestGroup.execute_tc_results]
    exact execCasesFrom_length ctx g.all_test_cases true mod
  · rw [TestGroup.execute_tc_results]
    exact execCasesFrom_parents ctx g.all_test_cases true mod
  · intro tc _
    cases htc : tc.judgement <;> simp [Judgement.serializeStr, htc]

/-- Claim C8 witness: the `gEx` run yields one result per declared case. -/
theorem C8_group_serialization_witness :
    (gEx.execute ctx0 mod0).1.tc_results.length = gEx.all_test_cases.length :=
  (C8_group_serialization gEx ctx0 mod0).2.1

/-- Claim C9: executing the same suite twice against the same configuration
and the same module namespace yields identical serialized reports (the
embedding is pure, so determinism of routines is inherent). -/
theorem C9_two_run_determinism (s : TestSuite) (ctx1 ctx2 : ApplicationContext)
    (mod1 mod2 : ModuleType) (hctx : ctx1 = ctx2) (hmod : mod1 = mod2) :
    ((s.execute ctx1 mod1).1).serialize = ((s.execute ctx2 mod2).1).serialize := by
  rw [hctx, hmod]

/-- Claim C9 witness: two runs of the concrete suite coincide. -/
theorem C9_two_run_determinism_witness :
    ((suiteEx.execute ctx0 mod0).1).serialize
      = ((suiteEx.execute ctx0 mod0).1).serialize :=
  C9_two_run_determinism suiteEx ctx0 ctx0 mod0 mod0 rfl rfl

/-- Claim C10: a group with no test cases executes to an accepted result
with an empty result list that earns its full score weight. -/
theorem C10_empty_group_full_score (g : TestGroup) (ctx : ApplicationContext)
    (mod : ModuleType) (h : g.all_test_cases = []) :
    ((g.execute ctx mod).1.is_accepted = true)
    ∧ ((g.execute ctx mod).1.tc_results = [])
    ∧ ((g.execute ctx mod).1.score_earned = g.score_weight) := by
  have h1 : (g.execute ctx mod).1.is_accepted = true := by
    rw [TestGroup.execute_is_accepted, h]
    rfl
  have h2 : (g.execute ctx mod).1.tc_results = [] := by
    rw [TestGroup.execute_tc_results, h]
    rfl
  refine ⟨h1, h2, ?_⟩
  simp only [TestGroupResult.score_earned]
  rw [show (g.execute ctx mod).1.parent = g from rfl, h1]
  simp [boolToInt]

/-- Claim C10 witness: the empty group `gEmpty` earns its full weight. -/
theorem C10_empty_group_full_score_witness :
    (gEmpty.execute ctx0 mod0).1.score_earned = gEmpty.score_weight :=
  (C10_empty_group_full_score gEmpty ctx0 mod0 rfl).2.2

end NbNursery
